import Mathlib

/-
Verification of `seiten-formatter.py`, a linear text-cleaning pipeline:
load settings → fetch HTML → strip rt/sup tags → extract paragraph text →
substitute special characters → delete numeric footnote patterns →
adjust line breaks → write the result.

Document text is embedded as `List Char`.  Python's `re.sub` with the fixed,
finite-length patterns used by the program is embedded as `reSub`: a
left-to-right scan that, at each position, either consumes a match (emitting
the replacement and continuing after the matched characters of the original
text — replacements are never rescanned, as in `re.sub`) or keeps one
character and moves on.  Each regular expression of the source is embedded
as a matcher returning the length of the (fixed-length) match at the head
of the list, if any.  `\d` is embedded as `Char.isDigit`; the texts this
program manipulates use ASCII digits for its footnote markers.
-/

namespace Seiten

/-! ### Embedding of `re.sub` for fixed-length patterns -/

/-- One left-to-right pass of `re.sub pat repl text`, fuelled (the fuel is
set to the length of the list, which suffices because every matcher consumes
at least one character). -/
def reSubFuel (m : List Char → Option Nat) (r : List Char) : Nat → List Char → List Char
  | _, [] => []
  | 0, l => l
  | Nat.succ fuel, c :: cs =>
      match m (c :: cs) with
      | some n => r ++ reSubFuel m r fuel (List.drop (n - 1) cs)
      | none => c :: reSubFuel m r fuel cs

/-- `re.sub pat repl text` where `m` is the matcher of `pat` and `r` the
replacement string. -/
def reSub (m : List Char → Option Nat) (r : List Char) (l : List Char) : List Char :=
  reSubFuel m r l.length l

/-! ### The four numeric patterns of `remove_numeric_patterns`
(source lines 112-114: `\d{4}!\)`, `\)\d{4}`, `\d{4}\)`, `\d{4}`) -/

/-- Matcher of `\d{4}!\)`. -/
def m1 : List Char → Option Nat
  | a :: b :: c :: d :: e :: f :: _ =>
      if a.isDigit && b.isDigit && c.isDigit && d.isDigit && e = '!' && f = ')' then some 6 else none
  | _ => none

/-- Matcher of `\)\d{4}`. -/
def m2 : List Char → Option Nat
  | a :: b :: c :: d :: e :: _ =>
      if a = ')' && b.isDigit && c.isDigit && d.isDigit && e.isDigit then some 5 else none
  | _ => none

/-- Matcher of `\d{4}\)`. -/
def m3 : List Char → Option Nat
  | a :: b :: c :: d :: e :: _ =>
      if a.isDigit && b.isDigit && c.isDigit && d.isDigit && e = ')' then some 5 else none
  | _ => none

/-- Matcher of `\d{4}`. -/
def m4 : List Char → Option Nat
  | a :: b :: c :: d :: _ =>
      if a.isDigit && b.isDigit && c.isDigit && d.isDigit then some 4 else none
  | _ => none

/-- `remove_numeric_patterns` (source lines 106-117): the four patterns are
deleted in order, each operating on the already-modified text. -/
def remove_numeric_patterns (l : List Char) : List Char :=
  [m1, m2, m3, m4].foldl (fun t m => reSub m [] t) l

/-- Length of the maximal digit run at the head of the list. -/
def leadDigits : List Char → Nat
  | [] => 0
  | c :: cs => if c.isDigit then leadDigits cs + 1 else 0

/-- Whether the list contains a run of four consecutive (ASCII) digits,
i.e. whether `\d{4}` matches anywhere in it. -/
def hasQuad : List Char → Bool
  | [] => false
  | c :: cs => decide (4 ≤ leadDigits (c :: cs)) || hasQuad cs

/-! ### `remove_special_chars` (source lines 91-104): `str.translate` with a
fixed single-character table -/

/-- The `char_mapping` table of the source, as a per-character substitution
(`str.maketrans` maps each single-character key to its replacement string;
unmapped characters pass through). -/
def charMap (c : Char) : List Char :=
  if c = '一' then [] else
  if c = '　' then [] else
  if c = '*' then [] else
  if c = '^' then [] else
  if c = '¬' then [] else
  if c = '¼' then [] else
  if c = '↓' then [] else
  if c = '↑' then [] else
  if c = 'ª' then [] else
  if c = '◎' then [] else
  if c = '▲' then [] else
  if c = '▼' then [] else
  if c = '◆' then [] else
  if c = 'º' then [] else
  if c = '↧' then [] else
  if c = '↥' then [] else
  if c = '↠' then [] else
  if c = '↞' then [] else
  if c = '↡' then [] else
  if c = '↢' then [] else
  if c = '↣' then [] else
  if c = '↦' then [] else
  if c = '▽' then [] else
  if c = '△' then [] else
  if c = 'ˆ' then [] else
  if c = 'ˇ' then [] else
  if c = '｡' then ['。'] else
  if c = '､' then ['、'] else
  if c = ' ' then [] else [c]

/-- `text.translate(table)`: apply `charMap` to every character. -/
def remove_special_chars (l : List Char) : List Char :=
  l.flatMap charMap

/-! ### `adjust_line_breaks` (source lines 119-127) -/

/-- Matcher of `。　` (full stop followed by fullwidth space). -/
def mKuten : List Char → Option Nat
  | a :: b :: _ => if a = '。' && b = '　' then some 2 else none
  | _ => none

/-- Matcher of `【`. -/
def mBracket : List Char → Option Nat
  | a :: _ => if a = '【' then some 1 else none
  | _ => none

/-- `adjust_line_breaks`: first `re.sub("。　", "。\n　", text)`, then
`re.sub("【", "\n【", text)`. -/
def adjust_line_breaks (l : List Char) : List Char :=
  reSub mBracket ['\n', '【'] (reSub mKuten ['。', '\n', '　'] l)

/-! ### The document tree

The BeautifulSoup tree is embedded as a tree of text nodes and tagged
elements.  The soup object returned by parsing is the document node; its
own tag is never one of `rt`, `sup`, `p`, so whether the search functions
examine the root's tag is immaterial for parsed documents. -/

inductive Html where
  | text : List Char → Html
  | elem : String → List Html → Html

/-! `remove_tags` (source lines 68-77): `soup.find_all(["rt", "sup"])`
followed by `element.decompose()` removes every `rt`/`sup` element together
with its whole subtree, anywhere in the tree. -/

mutual

def stripNode : Html → List Html
  | .text s => [.text s]
  | .elem t cs => if t = "rt" ∨ t = "sup" then [] else [.elem t (stripList cs)]

def stripList : List Html → List Html
  | [] => []
  | n :: ns => stripNode n ++ stripList ns

end

/-- `remove_tags`: the soup root (the document node) is kept; every `rt` or
`sup` element below it is decomposed. -/
def remove_tags : Html → Html
  | .text s => .text s
  | .elem t cs => .elem t (stripList cs)

/-! `extract_paragraphs` (source lines 79-89): `soup.find_all("p")` in
document order, `paragraph.text` (all descendant text, concatenated), with
`"\n\n"` appended after each paragraph. -/

mutual

def textOf : Html → List Char
  | .text s => s
  | .elem _ cs => textListOf cs

def textListOf : List Html → List Char
  | [] => []
  | n :: ns => textOf n ++ textListOf ns

end

mutual

def findPs : Html → List Html
  | .text _ => []
  | .elem t cs => (if t = "p" then [Html.elem t cs] else []) ++ findPsList cs

def findPsList : List Html → List Html
  | [] => []
  | n :: ns => findPs n ++ findPsList ns

end

/-- `extract_paragraphs`: `output_text = ""`, then for each paragraph
`output_text += paragraph.text + "\n\n"`. -/
def extract_paragraphs (doc : Html) : List Char :=
  (findPs doc).foldl (fun acc p => acc ++ (textOf p ++ ['\n', '\n'])) []

/-! ### The orchestrator (`main`, source lines 142-157) and the I/O stages

File contents, the network and the HTML parser are external inputs of the
program; they enter the model as explicit parameters:
`fs` maps a local path to its contents (`none` = `FileNotFoundError`/`IOError`),
`web` maps a URL to its HTTP response (`none` = timeout, connection error or
other `requests` exception), and `pr` is the external BeautifulSoup/lxml
parser turning markup text into a tree. -/

/-- An HTTP response: `text_default` is `response.text` under the
originally declared encoding, `text_apparent` is `response.text` after
`response.encoding = response.apparent_encoding` (the re-decoded body). -/
structure Response where
  status_code : Nat
  text_default : List Char
  text_apparent : List Char

/-- The settings mapping with its two required keys. -/
structure Config where
  url : List Char
  output_file : List Char

/-- `fetch_html` (source lines 33-66): a `file://` URL is read from disk
(exceptions caught, yielding `None`); otherwise `requests.get` is issued
(`None` on timeout/connection/request errors), a status code other than
exactly 200 yields `None` after logging, and on status 200 the body
re-decoded with the apparent encoding is returned. -/
def fetch_html (fs : List Char → Option (List Char)) (web : List Char → Option Response)
    (url : List Char) : Option (List Char) :=
  if List.isPrefixOf "file://".data url then fs (List.drop 7 url)
  else
    match web url with
    | none => none
    | some r => if r.status_code ≠ 200 then none else some r.text_apparent

/-- `load_settings` (source lines 19-31).  `readResult` models
`open(file_path).read()` — `Except.error` is an `IOError` (missing or
unreadable file); `safe_load` models `yaml.safe_load` — `Except.error` is a
`yaml.YAMLError` on malformed input, `Except.ok` the loaded value (`none`
for an empty document).  The `try` block catches only `IOError`, printing a
message and returning `None`; a `YAMLError` is not caught and propagates
out of the function. -/
def load_settings (readResult : Except String (List Char))
    (safe_load : List Char → Except String (Option Config)) :
    Except String (Option Config) :=
  match readResult with
  | .error _ => .ok none
  | .ok contents =>
      match safe_load contents with
      | .error e => .error e
      | .ok v => .ok v

/-- `main` after `load_settings` has produced `settings`: the result is the
single write action `(output_file, text)` performed by
`save_text_to_file`, or `none` when the pipeline halts early (`if settings:`
fails, or `if html_text:` fails because the fetch returned `None` or an
empty string).  `none` means no output file is created or modified. -/
def mainRun (settings : Option Config) (fs : List Char → Option (List Char))
    (web : List Char → Option Response) (pr : List Char → Html) :
    Option (List Char × List Char) :=
  match settings with
  | none => none
  | some cfg =>
      match fetch_html fs web cfg.url with
      | none => none
      | some html_text =>
          if html_text.isEmpty then none
          else
            some (cfg.output_file,
              adjust_line_breaks (remove_numeric_patterns (remove_special_chars
                (extract_paragraphs (remove_tags (pr html_text))))))

/-- An empty filesystem: every read raises `FileNotFoundError`. -/
def noFs : List Char → Option (List Char) := fun _ => none

/-- A network on which every request fails (timeout / connection error). -/
def noWeb : List Char → Option Response := fun _ => none

/-- A degenerate parser used only where the parse result is irrelevant. -/
def trivialTree : List Char → Html := fun s => Html.text s

/-! ### The end-to-end scenario of the specification -/

/-- The scenario document `<p>あ<rt>ふりがな</rt>い。　う</p>`. -/
def scenarioHtml : List Char := "<p>あ<rt>ふりがな</rt>い。　う</p>".data

/-- The parse tree of the scenario document (lxml wraps the fragment in
`html`/`body`). -/
def scenarioTree : Html :=
  .elem "html" [.elem "body" [.elem "p"
    [.text "あ".data, .elem "rt" [.text "ふりがな".data], .text "い。　う".data]]]

/-- Modelled from the spec: HTML parsing is done by the external
BeautifulSoup/lxml library, which is not part of this repository's source
("Parses it into a traversable document tree"); on the scenario document it
yields `scenarioTree`. -/
def scenarioParseTree : List Char → Html :=
  fun s => if s = scenarioHtml then scenarioTree else Html.text s

/-- A filesystem holding the scenario document at `/tmp/in.html`. -/
def scenarioFs : List Char → Option (List Char) :=
  fun p => if p = "/tmp/in.html".data then some scenarioHtml else none

/-- The scenario configuration. -/
def scenarioConfig : Config :=
  ⟨"file:///tmp/in.html".data, "/tmp/out.txt".data⟩

/-- A malformed configuration text (unclosed flow sequence). -/
def malformedYaml : List Char := "url: [".data

/-- A `yaml.safe_load` behaviour that raises a `ScannerError` (a
`yaml.YAMLError`) on every input, as it does on `malformedYaml`. -/
def scannerError : List Char → Except String (Option Config) :=
  fun _ => Except.error "ScannerError: while parsing a flow node"

/-! ## Theorems -/

/-! ### Supporting lemmas about the `re.sub` embedding -/

theorem reSubFuel_nil (m : List Char → Option Nat) (r : List Char) (fuel : Nat) :
    reSubFuel m r fuel [] = [] := by
  cases fuel <;> rfl

theorem reSubFuel_cons_some {m : List Char → Option Nat} {c : Char} {cs : List Char}
    {n : Nat} (r : List Char) (fuel : Nat) (h : m (c :: cs) = some n) :
    reSubFuel m r (fuel + 1) (c :: cs) = r ++ reSubFuel m r fuel (List.drop (n - 1) cs) := by
  simp [reSubFuel, h]

theorem reSubFuel_cons_none {m : List Char → Option Nat} {c : Char} {cs : List Char}
    (r : List Char) (fuel : Nat) (h : m (c :: cs) = none) :
    reSubFuel m r (fuel + 1) (c :: cs) = c :: reSubFuel m r fuel cs := by
  simp [reSubFuel, h]

theorem reSubFuel_id (m : List Char → Option Nat) (r : List Char) (Q : List Char → Prop)
    (hm : ∀ l, Q l → m l = none) (ht : ∀ c cs, Q (c :: cs) → Q cs) :
    ∀ fuel l, Q l → reSubFuel m r fuel l = l := by
  intro fuel
  induction fuel with
  | zero => intro l _; cases l <;> rfl
  | succ k ih =>
      intro l hQ
      cases l with
      | nil => rfl
      | cons c cs => rw [reSubFuel_cons_none r k (hm _ hQ), ih cs (ht c cs hQ)]

theorem reSub_id_of_pred (m : List Char → Option Nat) (r : List Char)
    (Q : List Char → Prop) (hm : ∀ x, Q x → m x = none)
    (ht : ∀ c cs, Q (c :: cs) → Q cs) (l : List Char) (hQ : Q l) :
    reSub m r l = l :=
  reSubFuel_id m r Q hm ht l.length l hQ

theorem mem_reSubFuel (m : List Char → Option Nat) (r : List Char) :
    ∀ fuel l c, c ∈ reSubFuel m r fuel l → c ∈ r ∨ c ∈ l := by
  intro fuel
  induction fuel with
  | zero =>
      intro l c h
      cases l with
      | nil => rw [reSubFuel_nil] at h; exact absurd h (List.not_mem_nil c)
      | cons a as => exact Or.inr h
  | succ k ih =>
      intro l c h
      cases l with
      | nil => rw [reSubFuel_nil] at h; exact absurd h (List.not_mem_nil c)
      | cons a as =>
          cases hm : m (a :: as) with
          | some n =>
              rw [reSubFuel_cons_some r k hm] at h
              rcases List.mem_append.1 h with h1 | h2
              · exact Or.inl h1
              · rcases ih _ _ h2 with h3 | h4
                · exact Or.inl h3
                · exact Or.inr (List.mem_cons_of_mem _ (List.drop_subset _ _ h4))
          | none =>
              rw [reSubFuel_cons_none r k hm] at h
              rcases List.mem_cons.1 h with h1 | h2
              · exact Or.inr (List.mem_cons.2 (Or.inl h1))
              · rcases ih _ _ h2 with h3 | h4
                · exact Or.inl h3
                · exact Or.inr (List.mem_cons_of_mem _ h4)

theorem mem_of_mem_reSub_nil {m : List Char → Option Nat} {l : List Char} {c : Char}
    (h : c ∈ reSub m [] l) : c ∈ l := by
  rcases mem_reSubFuel m [] l.length l c h with h1 | h2
  · exact absurd h1 (List.not_mem_nil c)
  · exact h2

/-! ### Supporting lemmas about digit runs -/

theorem leadDigits_cons (c : Char) (cs : List Char) :
    leadDigits (c :: cs) = if c.isDigit then leadDigits cs + 1 else 0 := rfl

theorem leadDigits_le_length : ∀ l : List Char, leadDigits l ≤ l.length := by
  intro l
  induction l with
  | nil => simp [leadDigits]
  | cons c cs ih =>
      rw [leadDigits_cons]
      by_cases h : c.isDigit
      · rw [if_pos h]; simp only [List.length_cons]; omega
      · rw [if_neg h]; simp only [List.length_cons]; omega

theorem hasQuad_cons (c : Char) (cs : List Char) :
    hasQuad (c :: cs) = (decide (4 ≤ leadDigits (c :: cs)) || hasQuad cs) := rfl

theorem hasQuad_of_leadDigits {l : List Char} (h : 4 ≤ leadDigits l) :
    hasQuad l = true := by
  cases l with
  | nil => simp [leadDigits] at h
  | cons c cs => simp [hasQuad_cons, h]

theorem hasQuad_cons_false {c : Char} {cs : List Char} (h : hasQuad (c :: cs) = false) :
    leadDigits (c :: cs) ≤ 3 ∧ hasQuad cs = false := by
  rw [hasQuad_cons] at h
  simp only [Bool.or_eq_false_iff, decide_eq_false_iff_not, Nat.not_le] at h
  exact ⟨by omega, h.2⟩

theorem leadDigits_drop : ∀ (k : Nat) (l : List Char), k ≤ leadDigits l →
    leadDigits l = k + leadDigits (List.drop k l) := by
  intro k
  induction k with
  | zero => intro l _; simp
  | succ j ih =>
      intro l hl
      cases l with
      | nil => simp [leadDigits] at hl
      | cons a as =>
          rw [leadDigits_cons] at hl ⊢
          by_cases ha : a.isDigit
          · rw [if_pos ha] at hl ⊢
            have hj : j ≤ leadDigits as := by omega
            have := ih as hj
            rw [List.drop_succ_cons]
            omega
          · rw [if_neg ha] at hl
            omega

/-! ### Inversion lemmas for the four numeric matchers -/

theorem m4_none_leadDigits {l : List Char} (h : m4 l = none) : leadDigits l ≤ 3 := by
  rcases l with _ | ⟨a, _ | ⟨b, _ | ⟨c, _ | ⟨d, rest⟩⟩⟩⟩
  · simp [leadDigits]
  · exact le_trans (leadDigits_le_length _) (by simp)
  · exact le_trans (leadDigits_le_length _) (by simp)
  · exact le_trans (leadDigits_le_length _) (by simp)
  · simp only [m4] at h
    split at h
    · exact absurd h (by simp)
    · rename_i hcond
      by_cases ha : a.isDigit
      · by_cases hb : b.isDigit
        · by_cases hc : c.isDigit
          · by_cases hd : d.isDigit
            · exact absurd (by simp [ha, hb, hc, hd]) hcond
            · simp [leadDigits_cons, ha, hb, hc, hd]
          · simp [leadDigits_cons, ha, hb, hc]
        · simp [leadDigits_cons, ha, hb]
      · simp [leadDigits_cons, ha]

theorem m4_some_inv {l : List Char} {n : Nat} (h : m4 l = some n) :
    n = 4 ∧ 4 ≤ leadDigits l := by
  rcases l with _ | ⟨a, _ | ⟨b, _ | ⟨c, _ | ⟨d, rest⟩⟩⟩⟩
  · simp [m4] at h
  · simp [m4] at h
  · simp [m4] at h
  · simp [m4] at h
  · simp only [m4] at h
    split at h
    · rename_i hcond
      simp only [Bool.and_eq_true] at hcond
      obtain ⟨⟨⟨ha, hb⟩, hc⟩, hd⟩ := hcond
      simp only [Option.some.injEq] at h
      refine ⟨h.symm, ?_⟩
      simp [leadDigits_cons, ha, hb, hc, hd]
    · exact absurd h (by simp)

theorem m4_some_hasQuad {l : List Char} {n : Nat} (h : m4 l = some n) :
    hasQuad l = true :=
  hasQuad_of_leadDigits (m4_some_inv h).2

theorem m1_some_hasQuad {l : List Char} {n : Nat} (h : m1 l = some n) :
    hasQuad l = true := by
  rcases l with _ | ⟨a, _ | ⟨b, _ | ⟨c, _ | ⟨d, _ | ⟨e, _ | ⟨f, rest⟩⟩⟩⟩⟩⟩
  · simp [m1] at h
  · simp [m1] at h
  · simp [m1] at h
  · simp [m1] at h
  · simp [m1] at h
  · simp [m1] at h
  · simp only [m1] at h
    split at h
    · rename_i hcond
      simp only [Bool.and_eq_true, decide_eq_true_eq] at hcond
      obtain ⟨⟨⟨⟨⟨ha, hb⟩, hc⟩, hd⟩, _⟩, _⟩ := hcond
      apply hasQuad_of_leadDigits
      simp [leadDigits_cons, ha, hb, hc, hd]
    · exact absurd h (by simp)

theorem m2_some_hasQuad {l : List Char} {n : Nat} (h : m2 l = some n) :
    hasQuad l = true := by
  rcases l with _ | ⟨a, _ | ⟨b, _ | ⟨c, _ | ⟨d, _ | ⟨e, rest⟩⟩⟩⟩⟩
  · simp [m2] at h
  · simp [m2] at h
  · simp [m2] at h
  · simp [m2] at h
  · simp [m2] at h
  · simp only [m2] at h
    split at h
    · rename_i hcond
      simp only [Bool.and_eq_true, decide_eq_true_eq] at hcond
      obtain ⟨⟨⟨⟨_, hb⟩, hc⟩, hd⟩, he⟩ := hcond
      have htail : hasQuad (b :: c :: d :: e :: rest) = true := by
        apply hasQuad_of_leadDigits
        simp [leadDigits_cons, hb, hc, hd, he]
      rw [hasQuad_cons, htail]
      simp
    · exact absurd h (by simp)

theorem m3_some_hasQuad {l : List Char} {n : Nat} (h : m3 l = some n) :
    hasQuad l = true := by
  rcases l with _ | ⟨a, _ | ⟨b, _ | ⟨c, _ | ⟨d, _ | ⟨e, rest⟩⟩⟩⟩⟩
  · simp [m3] at h
  · simp [m3] at h
  · simp [m3] at h
  · simp [m3] at h
  · simp [m3] at h
  · simp only [m3] at h
    split at h
    · rename_i hcond
      simp only [Bool.and_eq_true, decide_eq_true_eq] at hcond
      obtain ⟨⟨⟨⟨ha, hb⟩, hc⟩, hd⟩, _⟩ := hcond
      apply hasQuad_of_leadDigits
      simp [leadDigits_cons, ha, hb, hc, hd]
    · exact absurd h (by simp)

theorem mKuten_some {l : List Char} {n : Nat} (h : mKuten l = some n) : '　' ∈ l := by
  rcases l with _ | ⟨a, _ | ⟨b, rest⟩⟩
  · simp [mKuten] at h
  · simp [mKuten] at h
  · simp only [mKuten] at h
    split at h
    · rename_i hcond
      simp only [Bool.and_eq_true, decide_eq_true_eq] at hcond
      obtain ⟨_, h2⟩ := hcond
      subst h2
      exact List.mem_cons_of_mem _ (List.mem_cons_self _ _)
    · exact absurd h (by simp)

/-! ### The fourth pattern leaves no four-digit run -/

theorem reSubFuel_m4_invariant :
    ∀ fuel l, l.length ≤ fuel →
      leadDigits (reSubFuel m4 [] fuel l) ≤ leadDigits l ∧
      hasQuad (reSubFuel m4 [] fuel l) = false := by
  intro fuel
  induction fuel with
  | zero =>
      intro l hl
      have hnil : l = [] := List.length_eq_zero.1 (Nat.le_zero.1 hl)
      subst hnil
      rw [reSubFuel_nil]
      exact ⟨le_rfl, rfl⟩
  | succ k ih =>
      intro l hl
      cases l with
      | nil => rw [reSubFuel_nil]; exact ⟨le_rfl, rfl⟩
      | cons c cs =>
          cases hm : m4 (c :: cs) with
          | some n =>
              obtain ⟨rfl, hlead⟩ := m4_some_inv hm
              rw [reSubFuel_cons_some [] k hm, List.nil_append]
              have h3 : 3 ≤ leadDigits cs := by
                rw [leadDigits_cons] at hlead
                by_cases hc : c.isDigit
                · rw [if_pos hc] at hlead; omega
                · rw [if_neg hc] at hlead; omega
              have hcs : cs.length ≤ k := by
                have := hl
                simp only [List.length_cons] at this
                omega
              have hlen : (List.drop (4 - 1) cs).length ≤ k := by
                rw [List.length_drop]
                omega
              obtain ⟨ih1, ih2⟩ := ih (List.drop (4 - 1) cs) hlen
              refine ⟨?_, ih2⟩
              have hdrop : leadDigits cs = 3 + leadDigits (List.drop 3 cs) :=
                leadDigits_drop 3 cs h3
              have h43 : (4 : Nat) - 1 = 3 := rfl
              rw [h43] at ih1
              rw [h43]
              rw [leadDigits_cons]
              by_cases hc : c.isDigit
              · rw [if_pos hc]; omega
              · rw [leadDigits_cons, if_neg hc] at hlead; omega
          | none =>
              have hle3 : leadDigits (c :: cs) ≤ 3 := m4_none_leadDigits hm
              rw [reSubFuel_cons_none [] k hm]
              have hcs : cs.length ≤ k := by
                have := hl
                simp only [List.length_cons] at this
                omega
              obtain ⟨ih1, ih2⟩ := ih cs hcs
              have hcount : leadDigits (c :: reSubFuel m4 [] k cs) ≤ 3 := by
                rw [leadDigits_cons]
                by_cases hc : c.isDigit
                · rw [if_pos hc]
                  rw [leadDigits_cons, if_pos hc] at hle3
                  omega
                · rw [if_neg hc]; omega
              constructor
              · rw [leadDigits_cons, leadDigits_cons]
                by_cases hc : c.isDigit
                · rw [if_pos hc, if_pos hc]; omega
                · rw [if_neg hc, if_neg hc]
              · rw [hasQuad_cons, ih2, Bool.or_false]
                exact decide_eq_false (by omega)

theorem hasQuad_reSub_m4 (l : List Char) : hasQuad (reSub m4 [] l) = false :=
  (reSubFuel_m4_invariant l.length l le_rfl).2

theorem reSub_id_of_noQuad (m : List Char → Option Nat)
    (hm : ∀ x n, m x = some n → hasQuad x = true) (r : List Char)
    (l : List Char) (hQ : hasQuad l = false) : reSub m r l = l := by
  apply reSub_id_of_pred m r (fun x => hasQuad x = false)
  · intro x hx
    cases hmx : m x with
    | none => rfl
    | some n => rw [hm x n hmx] at hx; exact absurd hx (by simp)
  · intro c cs h
    exact (hasQuad_cons_false h).2
  · exact hQ

/-! ### Lemmas about the substitution table -/

theorem charMap_cases (c : Char) :
    charMap c = [] ∨ charMap c = ['。'] ∨ charMap c = ['、'] ∨ charMap c = [c] := by
  by_cases h1 : c = '一'
  · unfold charMap
    rw [if_pos h1]
    simp
  by_cases h2 : c = '　'
  · unfold charMap
    rw [if_neg h1, if_pos h2]
    simp
  by_cases h3 : c = '*'
  · unfold charMap
    rw [if_neg h1, if_neg h2, if_pos h3]
    simp
  by_cases h4 : c = '^'
  · unfold charMap
    rw [if_neg h1, if_neg h2, if_neg h3, if_pos h4]
    simp
  by_cases h5 : c = '¬'
  · unfold charMap
    rw [if_neg h1, if_neg h2, if_neg h3, if_neg h4, if_pos h5]
    simp
  by_cases h6 : c = '¼'
  · unfold charMap
    rw [if_neg h1, if_neg h2, if_neg h3, if_neg h4, if_neg h5, if_pos h6]
    simp
  by_cases h7 : c = '↓'
  · unfold charMap
    rw [if_neg h1, if_neg h2, if_neg h3, if_neg h4, if_neg h5, if_neg h6, if_pos h7]
    simp
  by_cases h8 : c = '↑'
  · unfold charMap
    rw [if_neg h1, if_neg h2, if_neg h3, if_neg h4, if_neg h5, if_neg h6, if_neg h7, if_pos h8]
    simp
  by_cases h9 : c = 'ª'
  · unfold charMap
    rw [if_neg h1, if_neg h2, if_neg h3, if_neg h4, if_neg h5, if_neg h6, if_neg h7, if_neg h8, if_pos h9]
    simp
  by_cases h10 : c = '◎'
  · unfold charMap
    rw [if_neg h1, if_neg h2, if_neg h3, if_neg h4, if_neg h5, if_neg h6, if_neg h7, if_neg h8, if_neg h9, if_pos h10]
    simp
  by_cases h11 : c = '▲'
  · unfold charMap
    rw [if_neg h1, if_neg h2, if_neg h3, if_neg h4, if_neg h5, if_neg h6, if_neg h7, if_neg h8, if_neg h9, if_neg h10, if_pos h11]
    simp
  by_cases h12 : c = '▼'
  · unfold charMap
    rw [if_neg h1, if_neg h2, if_neg h3, if_neg h4, if_neg h5, if_neg h6, if_neg h7, if_neg h8, if_neg h9, if_neg h10, if_neg h11, if_pos h12]
    simp
  by_cases h13 : c = '◆'
  · unfold charMap
    rw [if_neg h1, if_neg h2, if_neg h3, if_neg h4, if_neg h5, if_neg h6, if_neg h7, if_neg h8, if_neg h9, if_neg h10, if_neg h11, if_neg h12, if_pos h13]
    simp
  by_cases h14 : c = 'º'
  · unfold charMap
    rw [if_neg h1, if_neg h2, if_neg h3, if_neg h4, if_neg h5, if_neg h6, if_neg h7, if_neg h8, if_neg h9, if_neg h10, if_neg h11, if_neg h12, if_neg h13, if_pos h14]
    simp
  by_cases h15 : c = '↧'
  · unfold charMap
    rw [if_neg h1, if_neg h2, if_neg h3, if_neg h4, if_neg h5, if_neg h6, if_neg h7, if_neg h8, if_neg h9, if_neg h10, if_neg h11, if_neg h12, if_neg h13, if_neg h14, if_pos h15]
    simp
  by_cases h16 : c = '↥'
  · unfold charMap
    rw [if_neg h1, if_neg h2, if_neg h3, if_neg h4, if_neg h5, if_neg h6, if_neg h7, if_neg h8, if_neg h9, if_neg h10, if_neg h11, if_neg h12, if_neg h13, if_neg h14, if_neg h15, if_pos h16]
    simp
  by_cases h17 : c = '↠'
  · unfold charMap
    rw [if_neg h1, if_neg h2, if_neg h3, if_neg h4, if_neg h5, if_neg h6, if_neg h7, if_neg h8, if_neg h9, if_neg h10, if_neg h11, if_neg h12, if_neg h13, if_neg h14, if_neg h15, if_neg h16, if_pos h17]
    simp
  by_cases h18 : c = '↞'
  · unfold charMap
    rw [if_neg h1, if_neg h2, if_neg h3, if_neg h4, if_neg h5, if_neg h6, if_neg h7, if_neg h8, if_neg h9, if_neg h10, if_neg h11, if_neg h12, if_neg h13, if_neg h14, if_neg h15, if_neg h16, if_neg h17, if_pos h18]
    simp
  by_cases h19 : c = '↡'
  · unfold charMap
    rw [if_neg h1, if_neg h2, if_neg h3, if_neg h4, if_neg h5, if_neg h6, if_neg h7, if_neg h8, if_neg h9, if_neg h10, if_neg h11, if_neg h12, if_neg h13, if_neg h14, if_neg h15, if_neg h16, if_neg h17, if_neg h18, if_pos h19]
    simp
  by_cases h20 : c = '↢'
  · unfold charMap
    rw [if_neg h1, if_neg h2, if_neg h3, if_neg h4, if_neg h5, if_neg h6, if_neg h7, if_neg h8, if_neg h9, if_neg h10, if_neg h11, if_neg h12, if_neg h13, if_neg h14, if_neg h15, if_neg h16, if_neg h17, if_neg h18, if_neg h19, if_pos h20]
    simp
  by_cases h21 : c = '↣'
  · unfold charMap
    rw [if_neg h1, if_neg h2, if_neg h3, if_neg h4, if_neg h5, if_neg h6, if_neg h7, if_neg h8, if_neg h9, if_neg h10, if_neg h11, if_neg h12, if_neg h13, if_neg h14, if_neg h15, if_neg h16, if_neg h17, if_neg h18, if_neg h19, if_neg h20, if_pos h21]
    simp
  by_cases h22 : c = '↦'
  · unfold charMap
    rw [if_neg h1, if_neg h2, if_neg h3, if_neg h4, if_neg h5, if_neg h6, if_neg h7, if_neg h8, if_neg h9, if_neg h10, if_neg h11, if_neg h12, if_neg h13, if_neg h14, if_neg h15, if_neg h16, if_neg h17, if_neg h18, if_neg h19, if_neg h20, if_neg h21, if_pos h22]
    simp
  by_cases h23 : c = '▽'
  · unfold charMap
    rw [if_neg h1, if_neg h2, if_neg h3, if_neg h4, if_neg h5, if_neg h6, if_neg h7, if_neg h8, if_neg h9, if_neg h10, if_neg h11, if_neg h12, if_neg h13, if_neg h14, if_neg h15, if_neg h16, if_neg h17, if_neg h18, if_neg h19, if_neg h20, if_neg h21, if_neg h22, if_pos h23]
    simp
  by_cases h24 : c = '△'
  · unfold charMap
    rw [if_neg h1, if_neg h2, if_neg h3, if_neg h4, if_neg h5, if_neg h6, if_neg h7, if_neg h8, if_neg h9, if_neg h10, if_neg h11, if_neg h12, if_neg h13, if_neg h14, if_neg h15, if_neg h16, if_neg h17, if_neg h18, if_neg h19, if_neg h20, if_neg h21, if_neg h22, if_neg h23, if_pos h24]
    simp
  by_cases h25 : c = 'ˆ'
  · unfold charMap
    rw [if_neg h1, if_neg h2, if_neg h3, if_neg h4, if_neg h5, if_neg h6, if_neg h7, if_neg h8, if_neg h9, if_neg h10, if_neg h11, if_neg h12, if_neg h13, if_neg h14, if_neg h15, if_neg h16, if_neg h17, if_neg h18, if_neg h19, if_neg h20, if_neg h21, if_neg h22, if_neg h23, if_neg h24, if_pos h25]
    simp
  by_cases h26 : c = 'ˇ'
  · unfold charMap
    rw [if_neg h1, if_neg h2, if_neg h3, if_neg h4, if_neg h5, if_neg h6, if_neg h7, if_neg h8, if_neg h9, if_neg h10, if_neg h11, if_neg h12, if_neg h13, if_neg h14, if_neg h15, if_neg h16, if_neg h17, if_neg h18, if_neg h19, if_neg h20, if_neg h21, if_neg h22, if_neg h23, if_neg h24, if_neg h25, if_pos h26]
    simp
  by_cases h27 : c = '｡'
  · unfold charMap
    rw [if_neg h1, if_neg h2, if_neg h3, if_neg h4, if_neg h5, if_neg h6, if_neg h7, if_neg h8, if_neg h9, if_neg h10, if_neg h11, if_neg h12, if_neg h13, if_neg h14, if_neg h15, if_neg h16, if_neg h17, if_neg h18, if_neg h19, if_neg h20, if_neg h21, if_neg h22, if_neg h23, if_neg h24, if_neg h25, if_neg h26, if_pos h27]
    simp
  by_cases h28 : c = '､'
  · unfold charMap
    rw [if_neg h1, if_neg h2, if_neg h3, if_neg h4, if_neg h5, if_neg h6, if_neg h7, if_neg h8, if_neg h9, if_neg h10, if_neg h11, if_neg h12, if_neg h13, if_neg h14, if_neg h15, if_neg h16, if_neg h17, if_neg h18, if_neg h19, if_neg h20, if_neg h21, if_neg h22, if_neg h23, if_neg h24, if_neg h25, if_neg h26, if_neg h27, if_pos h28]
    simp
  by_cases h29 : c = ' '
  · unfold charMap
    rw [if_neg h1, if_neg h2, if_neg h3, if_neg h4, if_neg h5, if_neg h6, if_neg h7, if_neg h8, if_neg h9, if_neg h10, if_neg h11, if_neg h12, if_neg h13, if_neg h14, if_neg h15, if_neg h16, if_neg h17, if_neg h18, if_neg h19, if_neg h20, if_neg h21, if_neg h22, if_neg h23, if_neg h24, if_neg h25, if_neg h26, if_neg h27, if_neg h28, if_pos h29]
    simp
  · unfold charMap
    rw [if_neg h1, if_neg h2, if_neg h3, if_neg h4, if_neg h5, if_neg h6, if_neg h7, if_neg h8, if_neg h9, if_neg h10, if_neg h11, if_neg h12, if_neg h13, if_neg h14, if_neg h15, if_neg h16, if_neg h17, if_neg h18, if_neg h19, if_neg h20, if_neg h21, if_neg h22, if_neg h23, if_neg h24, if_neg h25, if_neg h26, if_neg h27, if_neg h28, if_neg h29]
    simp

theorem charMap_charMap (c : Char) : (charMap c).flatMap charMap = charMap c := by
  rcases charMap_cases c with h | h | h | h <;> rw [h]
  · rfl
  · decide
  · decide
  · simp only [List.flatMap_cons, List.flatMap_nil, List.append_nil]
    exact h

theorem fwspace_not_mem_charMap (c : Char) : '　' ∉ charMap c ∧ ' ' ∉ charMap c := by
  rcases charMap_cases c with h | h | h | h <;> rw [h]
  · simp
  · decide
  · decide
  · constructor
    · intro hmem
      rw [List.mem_singleton] at hmem
      subst hmem
      have hx : charMap '　' = [] := by decide
      rw [hx] at h
      exact List.noConfusion h
    · intro hmem
      rw [List.mem_singleton] at hmem
      subst hmem
      have hx : charMap ' ' = [] := by decide
      rw [hx] at h
      exact List.noConfusion h

theorem remove_special_chars_no_space (l : List Char) :
    '　' ∉ remove_special_chars l ∧ ' ' ∉ remove_special_chars l := by
  refine ⟨fun hmem => ?_, fun hmem => ?_⟩
  · unfold remove_special_chars at hmem
    rw [List.mem_flatMap] at hmem
    obtain ⟨a, _, ha⟩ := hmem
    exact (fwspace_not_mem_charMap a).1 ha
  · unfold remove_special_chars at hmem
    rw [List.mem_flatMap] at hmem
    obtain ⟨a, _, ha⟩ := hmem
    exact (fwspace_not_mem_charMap a).2 ha

theorem mem_of_mem_remove_numeric {l : List Char} {c : Char}
    (h : c ∈ remove_numeric_patterns l) : c ∈ l := by
  have hfold : remove_numeric_patterns l =
      reSub m4 [] (reSub m3 [] (reSub m2 [] (reSub m1 [] l))) := rfl
  rw [hfold] at h
  exact mem_of_mem_reSub_nil (mem_of_mem_reSub_nil (mem_of_mem_reSub_nil
    (mem_of_mem_reSub_nil h)))

/-! ### Paragraph folding -/

theorem foldl_append_flatMap (g : Html → List Char) :
    ∀ (ps : List Html) (acc : List Char),
      ps.foldl (fun a p => a ++ g p) acc = acc ++ ps.flatMap g := by
  intro ps
  induction ps with
  | nil => intro acc; simp
  | cons p ps ih =>
      intro acc
      simp [List.foldl_cons, List.flatMap_cons, ih, List.append_assoc]

/-! ### The claims -/

/-- C1 counterexample: on the end-to-end scenario the pipeline does not
write `"あい。\n　う\n\n"` — the fullwidth space of `"あい。　う"` is deleted
by `remove_special_chars` (its table maps `　` to the empty string), so the
`。　` line-break rule cannot fire. -/
theorem c1_counterexample :
    mainRun (some scenarioConfig) scenarioFs noWeb scenarioParseTree ≠
      some ("/tmp/out.txt".data, "あい。\n　う\n\n".data) := by
  decide

/-- C1 amended: on the end-to-end scenario the pipeline writes exactly
`"あい。う\n\n"` to `/tmp/out.txt` (the fullwidth space is removed by the
character-substitution stage, so no line break is inserted). -/
theorem c1_amended_output :
    mainRun (some scenarioConfig) scenarioFs noWeb scenarioParseTree =
      some ("/tmp/out.txt".data, "あい。う\n\n".data) := by
  decide

/-- C4: the numeric patterns apply in fixed priority order on the
already-modified text: `"1234!)"` is removed entirely by the first pattern,
`"(1234)"` loses `1234)` to the third pattern leaving `"("`, and a bare
`"1234"` is removed by the fourth pattern. -/
theorem c4_numeric_pattern_order :
    remove_numeric_patterns "1234!)".data = [] ∧
    remove_numeric_patterns "(1234)".data = "(".data ∧
    remove_numeric_patterns "1234".data = [] := by
  refine ⟨by decide, by decide, by decide⟩

/-- C8: `adjust_line_breaks` inserts a newline after `。　` (placing the
fullwidth space after the newline) and a newline before `【`:
`"。　次"` becomes `"。\n　次"` and `"前【後"` becomes `"前\n【後"`. -/
theorem c8_line_breaks :
    adjust_line_breaks "。　次".data = "。\n　次".data ∧
    adjust_line_breaks "前【後".data = "前\n【後".data := by
  refine ⟨by decide, by decide⟩

/-- C2 counterexample: on a malformed configuration file the loader does
not return the failure sentinel — the `yaml.YAMLError` raised by
`yaml.safe_load` is not caught by the `except IOError` handler and
propagates out of `load_settings`. -/
theorem c2_counterexample :
    load_settings (Except.ok malformedYaml) scannerError =
      Except.error "ScannerError: while parsing a flow node" ∧
    load_settings (Except.ok malformedYaml) scannerError ≠ Except.ok none := by
  exact ⟨rfl, fun h => Except.noConfusion h⟩

/-- C2 amended: when the configuration file is missing or unreadable (an
`IOError` while opening/reading it) the loader logs and returns `None`, and
the orchestrator with no settings performs no further pipeline stage; but
when the file is malformed, `yaml.safe_load` raises an error that
`load_settings` propagates instead of returning the failure sentinel. -/
theorem c2_amended_loader (e : String)
    (sl : List Char → Except String (Option Config))
    (fs : List Char → Option (List Char)) (web : List Char → Option Response)
    (pr : List Char → Html) :
    load_settings (Except.error e) sl = Except.ok none ∧
    mainRun none fs web pr = none ∧
    (∀ s msg, sl s = Except.error msg →
      load_settings (Except.ok s) sl = Except.error msg) := by
  refine ⟨rfl, rfl, ?_⟩
  intro s msg h
  simp [load_settings, h]

/-- Witness for `c2_amended_loader` at concrete inputs. -/
theorem c2_amended_loader_witness :
    load_settings (Except.error "No such file or directory") scannerError =
      Except.ok none ∧
    load_settings (Except.ok malformedYaml) scannerError =
      Except.error "ScannerError: while parsing a flow node" :=
  ⟨(c2_amended_loader "No such file or directory" scannerError noFs noWeb trivialTree).1,
   (c2_amended_loader "No such file or directory" scannerError noFs noWeb trivialTree).2.2
     malformedYaml "ScannerError: while parsing a flow node" rfl⟩

/-- C3 counterexample: a response with the 2xx status 201 is treated as a
failure — `fetch_html` tests `status_code != 200`, not "non-2xx". -/
theorem c3_counterexample :
    ((200 : Nat) ≤ 201 ∧ (201 : Nat) < 300) ∧
    fetch_html noFs (fun _ => some ⟨201, "created".data, "created".data⟩)
      "http://example.com/x".data = none := by
  refine ⟨by decide, by decide⟩

/-- C3 amended: for a remote (non-`file://`) URL whose request yields a
response, any status other than exactly 200 is treated as failure, and a
status-200 response returns the body re-decoded with the detected
(apparent) encoding. -/
theorem c3_amended_fetch (fs : List Char → Option (List Char))
    (web : List Char → Option Response) (url : List Char) (r : Response)
    (hpre : List.isPrefixOf "file://".data url = false)
    (hweb : web url = some r) :
    fetch_html fs web url =
      if r.status_code = 200 then some r.text_apparent else none := by
  unfold fetch_html
  rw [hpre]
  simp only [Bool.false_eq_true, if_false, hweb]
  by_cases h200 : r.status_code = 200 <;> simp [h200]

/-- Witness for `c3_amended_fetch` at concrete inputs. -/
theorem c3_amended_fetch_witness :
    List.isPrefixOf "file://".data "http://example.com/a".data = false ∧
    fetch_html noFs (fun _ => some ⟨404, "nf".data, "nf".data⟩)
      "http://example.com/a".data = none := by
  refine ⟨by decide, ?_⟩
  have h := c3_amended_fetch noFs (fun _ => some ⟨404, "nf".data, "nf".data⟩)
    "http://example.com/a".data ⟨404, "nf".data, "nf".data⟩ (by decide) rfl
  simpa using h

/-- C6: with no settings the orchestrator performs nothing, and when the
fetch stage returns the failure sentinel or empty content the orchestrator
halts — in all these cases no write action is produced, so no output file
is created or modified. -/
theorem c6_early_failure_no_write (fs : List Char → Option (List Char))
    (web : List Char → Option Response) (pr : List Char → Html) (cfg : Config) :
    mainRun none fs web pr = none ∧
    (fetch_html fs web cfg.url = none ∨ fetch_html fs web cfg.url = some [] →
      mainRun (some cfg) fs web pr = none) := by
  refine ⟨rfl, ?_⟩
  intro h
  rcases h with h | h <;> simp [mainRun, h]

/-- Witness for `c6_early_failure_no_write` at concrete inputs. -/
theorem c6_early_failure_no_write_witness :
    fetch_html noFs noWeb "file:///nope.html".data = none ∧
    mainRun (some ⟨"file:///nope.html".data, "/tmp/o.txt".data⟩) noFs noWeb
      trivialTree = none :=
  ⟨by decide,
   (c6_early_failure_no_write noFs noWeb trivialTree
     ⟨"file:///nope.html".data, "/tmp/o.txt".data⟩).2 (Or.inl (by decide))⟩

/-- C5: `remove_special_chars` is idempotent — no non-empty replacement in
the table is itself a key (the two non-empty replacements `。` and `、` map
to themselves, i.e. are untouched by the table). -/
theorem c5_special_chars_idempotent :
    (∀ l, remove_special_chars (remove_special_chars l) = remove_special_chars l) ∧
    charMap '。' = ['。'] ∧ charMap '、' = ['、'] := by
  refine ⟨?_, by decide, by decide⟩
  intro l
  unfold remove_special_chars
  induction l with
  | nil => rfl
  | cons c cs ih =>
      simp only [List.flatMap_cons, List.flatMap_append, charMap_charMap, ih]

/-- C7: paragraph extraction is order-preserving — the extracted transcript
is the concatenation, in document order, of each paragraph's text followed
by exactly two newline characters (an empty paragraph contributes its empty
text plus the double newline). -/
theorem c7_extract_order (doc : Html) :
    extract_paragraphs doc = (findPs doc).flatMap (fun p => textOf p ++ ['\n', '\n']) := by
  have h := foldl_append_flatMap (fun p => textOf p ++ ['\n', '\n']) (findPs doc) []
  unfold extract_paragraphs
  simpa using h

/-- C9: the output of `remove_numeric_patterns` never contains four
consecutive ASCII digits, and consequently `remove_numeric_patterns` is
idempotent (every one of its four patterns needs a four-digit run to
match). -/
theorem c9_no_quad_and_idempotent (l : List Char) :
    hasQuad (remove_numeric_patterns l) = false ∧
    remove_numeric_patterns (remove_numeric_patterns l) = remove_numeric_patterns l := by
  have hfold : ∀ x : List Char, remove_numeric_patterns x =
      reSub m4 [] (reSub m3 [] (reSub m2 [] (reSub m1 [] x))) := fun _ => rfl
  have h1 : hasQuad (remove_numeric_patterns l) = false := by
    rw [hfold]
    exact hasQuad_reSub_m4 _
  refine ⟨h1, ?_⟩
  rw [hfold (remove_numeric_patterns l)]
  rw [reSub_id_of_noQuad m1 (fun x n h => m1_some_hasQuad h) [] _ h1]
  rw [reSub_id_of_noQuad m2 (fun x n h => m2_some_hasQuad h) [] _ h1]
  rw [reSub_id_of_noQuad m3 (fun x n h => m3_some_hasQuad h) [] _ h1]
  exact reSub_id_of_noQuad m4 (fun x n h => m4_some_hasQuad h) [] _ h1

/-- C10: `remove_special_chars` leaves neither a fullwidth space (U+3000)
nor an ASCII space in its output; therefore, on text produced by the
pipeline (special-character and numeric-pattern removal first), the
`。　` rule of `adjust_line_breaks` never fires — only the `【` rule can
act. -/
theorem c10_kuten_rule_never_fires (l : List Char) :
    ('　' ∉ remove_special_chars l ∧ ' ' ∉ remove_special_chars l) ∧
    adjust_line_breaks (remove_numeric_patterns (remove_special_chars l)) =
      reSub mBracket ['\n', '【'] (remove_numeric_patterns (remove_special_chars l)) := by
  refine ⟨remove_special_chars_no_space l, ?_⟩
  unfold adjust_line_breaks
  congr 1
  apply reSub_id_of_pred mKuten ['。', '\n', '　'] (fun x => '　' ∉ x)
  · intro x hx
    cases hmx : mKuten x with
    | none => rfl
    | some n => exact absurd (mKuten_some hmx) hx
  · intro c cs h hmem
    exact h (List.mem_cons_of_mem c hmem)
  · intro hmem
    exact (remove_special_chars_no_space l).1 (mem_of_mem_remove_numeric hmem)

end Seiten
